import Mathlib

/-!
Verification of the appointment-scheduling core of a Flask hospital
management application (src/app.py).

The handlers modelled here are the POST branches of
patient_create_appointment, patient_cancel_appointment,
patient_reschedule_appointment, doctor_complete_appointment,
doctor_availability (slot creation) and doctor_delete_availability.
The persistent store (users, appointments, treatments, availability
slots) is modelled as lists of rows; SQLAlchemy queries become list
scans in store order, and autoincrement primary keys are threaded as
explicit counters.  An uncaught Python exception escaping a handler is
modelled as a distinguished crash outcome.
-/

/-- Calendar date as parsed from a YYYY-MM-DD string. -/
structure PDate where
  year : Nat
  month : Nat
  day : Nat
  deriving DecidableEq, Repr

/-- Clock time as parsed from an HH:MM string. -/
structure PTime where
  hour : Nat
  minute : Nat
  deriving DecidableEq, Repr

/-- Combined timestamp as parsed from "YYYY-MM-DD HH:MM". -/
structure PDateTime where
  year : Nat
  month : Nat
  day : Nat
  hour : Nat
  minute : Nat
  deriving DecidableEq, Repr

/-- Numeric value of a decimal digit character, none otherwise. -/
def digitVal? (c : Char) : Option Nat :=
  if c.isDigit then some (c.toNat - 48) else none

/-- Parse exactly four decimal digits (the strptime directive for the year). -/
def parseYear4 : List Char → Option (Nat × List Char)
  | a :: b :: c :: d :: rest =>
    match digitVal? a, digitVal? b, digitVal? c, digitVal? d with
    | some w, some x, some y, some z => some (((w * 10 + x) * 10 + y) * 10 + z, rest)
    | _, _, _, _ => none
  | _ => none

/-- Parse one or two decimal digits, greedily.  The strptime directives for
month, day, hour and minute each match one or two digits; taking two when two
are available agrees with strptime on all inputs of the formats used here,
because a leftover digit makes the whole parse fail either way. -/
def parseTwoOrOne : List Char → Option (Nat × List Char)
  | a :: b :: rest =>
    match digitVal? a, digitVal? b with
    | some x, some y => some (x * 10 + y, rest)
    | some x, none => some (x, b :: rest)
    | none, _ => none
  | [a] =>
    match digitVal? a with
    | some x => some (x, [])
    | none => none
  | [] => none

/-- Consume one expected literal character. -/
def expectChar (c : Char) : List Char → Option (List Char)
  | a :: rest => if a = c then some rest else none
  | [] => none

/-- Drop leading whitespace characters. -/
def dropWs : List Char → List Char
  | a :: rest => if a.isWhitespace then dropWs rest else a :: rest
  | [] => []

/-- Consume one or more whitespace characters: a whitespace run in a strptime
format string matches any nonempty whitespace run in the input. -/
def skipWs1 : List Char → Option (List Char)
  | a :: rest => if a.isWhitespace then some (dropWs rest) else none
  | [] => none

/-- Gregorian leap-year rule, as implemented by the Python datetime module. -/
def isLeapYear (y : Nat) : Bool :=
  y % 4 == 0 && (y % 100 != 0 || y % 400 == 0)

/-- Number of days in a month, following the Python datetime module. -/
def daysInMonth (y m : Nat) : Nat :=
  if m = 2 then (if isLeapYear y then 29 else 28)
  else if m = 4 ∨ m = 6 ∨ m = 9 ∨ m = 11 then 30
  else 31

/-- Parse the year-month-day fragment at the head of a character list,
returning the date and the unconsumed rest.  Field ranges and day-of-month
validity follow datetime.strptime: month in 1..12, day in 1..daysInMonth. -/
def parseDateFrag (cs : List Char) : Option (PDate × List Char) := do
  let (y, cs) ← parseYear4 cs
  let cs ← expectChar '-' cs
  let (m, cs) ← parseTwoOrOne cs
  let cs ← expectChar '-' cs
  let (d, cs) ← parseTwoOrOne cs
  if 1 ≤ m ∧ m ≤ 12 ∧ 1 ≤ d ∧ d ≤ daysInMonth y m then pure (⟨y, m, d⟩, cs)
  else none

/-- Parse the hour-colon-minute fragment at the head of a character list,
with hour in 0..23 and minute in 0..59 as in datetime.strptime. -/
def parseTimeFrag (cs : List Char) : Option (PTime × List Char) := do
  let (h, cs) ← parseTwoOrOne cs
  let cs ← expectChar ':' cs
  let (mi, cs) ← parseTwoOrOne cs
  if h ≤ 23 ∧ mi ≤ 59 then pure (⟨h, mi⟩, cs) else none

/-- Model of datetime.strptime(s, date format).date(): the whole string must
be consumed, otherwise a ValueError is raised (modelled as none). -/
def strptimeDate (s : String) : Option PDate := do
  let (d, rest) ← parseDateFrag s.data
  if rest = [] then pure d else none

/-- Model of datetime.strptime(s, time format).time(). -/
def strptimeTime (s : String) : Option PTime := do
  let (t, rest) ← parseTimeFrag s.data
  if rest = [] then pure t else none

/-- Model of datetime.strptime on the combined string built by the booking
and reschedule handlers: the date string, one space, the time string. -/
def strptimeDateTime (dateStr timeStr : String) : Option PDateTime := do
  let cs := (dateStr ++ " " ++ timeStr).data
  let (d, cs) ← parseDateFrag cs
  let cs ← skipWs1 cs
  let (t, cs) ← parseTimeFrag cs
  if cs = [] then pure ⟨d.year, d.month, d.day, t.hour, t.minute⟩ else none

/-- Decimal value of a digit list (validity checked by the caller). -/
def digitsToNat (cs : List Char) : Nat :=
  cs.foldl (fun n c => n * 10 + (c.toNat - 48)) 0

/-- Model of the Python int conversion on form values: succeeds on a nonempty
all-digit string, raises ValueError (none) otherwise.  Python int also strips
surrounding whitespace and accepts a sign and digit-group underscores; those
variants never arise from the form controls and do not affect any claim. -/
def pyInt? (s : String) : Option Nat :=
  if s ≠ "" ∧ s.data.all Char.isDigit then some (digitsToNat s.data) else none

/-- Lexicographic comparison key for timestamps.  Each base strictly bounds
the corresponding field range of parsed values, so on parsed values the key
order coincides with the field-lexicographic order used by Python datetime
comparison. -/
def PDateTime.key (dt : PDateTime) : Nat :=
  (((dt.year * 16 + dt.month) * 32 + dt.day) * 32 + dt.hour) * 64 + dt.minute

/-- Strict order on timestamps, as used by the past-date check. -/
def dtBefore (a b : PDateTime) : Bool :=
  a.key < b.key

/-- Comparison key for clock times (minute is below 60 on parsed values,
matching Python time comparison). -/
def PTime.key (t : PTime) : Nat :=
  t.hour * 60 + t.minute

/-- Row of the user table; only the columns read by the modelled handlers
are kept (role and the activity flag). -/
structure User where
  id : Nat
  role : String
  is_active_flag : Bool
  deriving DecidableEq, Repr

/-- Row of the appointment table. -/
structure Appointment where
  id : Nat
  patient_id : Nat
  doctor_id : Nat
  date_time : PDateTime
  status : String
  deriving DecidableEq, Repr

/-- Row of the treatment table. -/
structure Treatment where
  id : Nat
  appointment_id : Nat
  diagnosis : String
  prescription : String
  notes : String
  deriving DecidableEq, Repr

/-- Row of the doctor availability table. -/
structure DoctorAvailability where
  id : Nat
  doctor_id : Nat
  date : PDate
  start_time : PTime
  end_time : PTime
  deriving DecidableEq, Repr

/-- The persistent store visible to the modelled handlers, with the next
autoincrement id of each mutable table. -/
structure AppState where
  users : List User
  appointments : List Appointment
  treatments : List Treatment
  availabilities : List DoctorAvailability
  nextApptId : Nat
  nextTreatmentId : Nat
  nextSlotId : Nat
  deriving DecidableEq, Repr

/-- The conflict condition of the booking and reschedule queries: an
appointment of the doctor at exactly that timestamp whose status is not
Cancelled, optionally excluding one appointment id. -/
def conflictsWith (doctorId : Nat) (dt : PDateTime) (excludeId : Option Nat)
    (a : Appointment) : Prop :=
  a.doctor_id = doctorId ∧ a.date_time = dt ∧ a.status ≠ "Cancelled" ∧
    ∀ i, excludeId = some i → a.id ≠ i

instance (doctorId : Nat) (dt : PDateTime) (excludeId : Option Nat) :
    DecidablePred (conflictsWith doctorId dt excludeId) := fun a => by
  unfold conflictsWith; infer_instance

/-- Existence form of the conflict query (a first() call used only for its
truthiness). -/
def hasConflict (l : List Appointment) (doctorId : Nat) (dt : PDateTime)
    (excludeId : Option Nat) : Bool :=
  l.any fun a => conflictsWith doctorId dt excludeId a

/-- First appointment with the given id belonging to the given patient, in
store order: the filter_by(id, patient_id).first_or_404() lookup. -/
def findPatientAppt (l : List Appointment) (apptId patientId : Nat) :
    Option Appointment :=
  l.find? fun a => a.id == apptId && a.patient_id == patientId

/-- First appointment with the given id assigned to the given doctor. -/
def findDoctorAppt (l : List Appointment) (apptId doctorId : Nat) :
    Option Appointment :=
  l.find? fun a => a.id == apptId && a.doctor_id == doctorId

/-- Update the row with the given primary key (primary keys are unique in the
store, so the ORM in-place mutation of the fetched row is a pointwise map over
the table). -/
def updateById (l : List Appointment) (i : Nat) (f : Appointment → Appointment) :
    List Appointment :=
  l.map fun a => if a.id = i then f a else a

/-- Remove the first element satisfying the predicate (deletion of the row
returned by first_or_404). -/
def removeFirst (p : α → Bool) : List α → List α
  | [] => []
  | a :: rest => if p a then rest else a :: removeFirst p rest

/-- Outcomes of the booking POST handler.  The crash outcome models an
uncaught exception escaping the handler before any commit. -/
inductive BookOutcome where
  | unauthorized
  | missingInput
  | invalidFormat
  | crash
  | conflict
  | success (st : AppState) (appt : Appointment)
  deriving DecidableEq, Repr

/-- Model of the POST branch of patient_create_appointment.  The handler also
queries the active doctors, but only to render the form: the POST path never
reads the user table, and the int conversion of the doctor id field happens
outside the try/except that guards strptime, so a non-numeric doctor id with
a well-formed timestamp raises an uncaught ValueError. -/
def patient_create_appointment (st : AppState) (userId : Nat) (role : String)
    (doctor_id date_str time_str : String) : BookOutcome :=
  if role ≠ "patient" then .unauthorized
  else if doctor_id = "" ∨ date_str = "" ∨ time_str = "" then .missingInput
  else
    match strptimeDateTime date_str time_str with
    | none => .invalidFormat
    | some dt =>
      match pyInt? doctor_id with
      | none => .crash
      | some did =>
        if hasConflict st.appointments did dt none then .conflict
        else
          let appt : Appointment :=
            { id := st.nextApptId, patient_id := userId, doctor_id := did,
              date_time := dt, status := "Booked" }
          .success
            { st with
              appointments := st.appointments ++ [appt],
              nextApptId := st.nextApptId + 1 }
            appt

/-- Outcomes of the cancellation handler. -/
inductive CancelOutcome where
  | unauthorized
  | notFound
  | stateError
  | pastDate
  | success (st : AppState)
  deriving DecidableEq, Repr

/-- Model of patient_cancel_appointment.  The current time is passed in
explicitly, standing for datetime.now(). -/
def patient_cancel_appointment (st : AppState) (userId : Nat) (role : String)
    (appointment_id : Nat) (now : PDateTime) : CancelOutcome :=
  if role ≠ "patient" then .unauthorized
  else
    match findPatientAppt st.appointments appointment_id userId with
    | none => .notFound
    | some appt =>
      if appt.status ≠ "Booked" then .stateError
      else if dtBefore appt.date_time now then .pastDate
      else
        .success
          { st with
            appointments := updateById st.appointments appointment_id
              (fun a => { a with status := "Cancelled" }) }

/-- Outcomes of the reschedule POST handler. -/
inductive RescheduleOutcome where
  | unauthorized
  | notFound
  | stateError
  | missingInput
  | invalidFormat
  | conflict
  | success (st : AppState)
  deriving DecidableEq, Repr

/-- Model of the POST branch of patient_reschedule_appointment.  The status
check precedes the input checks, matching the source; the conflict query
excludes the appointment being moved; no comparison with the current time is
made anywhere in this handler. -/
def patient_reschedule_appointment (st : AppState) (userId : Nat) (role : String)
    (appointment_id : Nat) (date_str time_str : String) : RescheduleOutcome :=
  if role ≠ "patient" then .unauthorized
  else
    match findPatientAppt st.appointments appointment_id userId with
    | none => .notFound
    | some appt =>
      if appt.status ≠ "Booked" then .stateError
      else if date_str = "" ∨ time_str = "" then .missingInput
      else
        match strptimeDateTime date_str time_str with
        | none => .invalidFormat
        | some dt =>
          if hasConflict st.appointments appt.doctor_id dt (some appt.id) then .conflict
          else
            .success
              { st with
                appointments := updateById st.appointments appointment_id
                  (fun a => { a with date_time := dt }) }

/-- Outcomes of the completion POST handler. -/
inductive CompleteOutcome where
  | unauthorized
  | notFound
  | success (st : AppState)
  deriving DecidableEq, Repr

/-- Model of the POST branch of doctor_complete_appointment.  There is no
status precondition: any appointment assigned to the doctor is accepted.  On
the update branch, Appointment.treatment is the one-to-many backref of
Treatment.appointment, so its value is a collection object (a list); when it
is nonempty the source assigns the three text fields onto that collection
object itself, which leaves the Treatment rows unchanged at commit.  Only the
empty case inserts a row. -/
def doctor_complete_appointment (st : AppState) (userId : Nat) (role : String)
    (appointment_id : Nat) (diagnosis prescription notes : String) :
    CompleteOutcome :=
  if role ≠ "doctor" then .unauthorized
  else
    match findDoctorAppt st.appointments appointment_id userId with
    | none => .notFound
    | some _ =>
      let st1 :=
        { st with
          appointments := updateById st.appointments appointment_id
            (fun a => { a with status := "Completed" }) }
      if st.treatments.any fun t => t.appointment_id == appointment_id then
        .success st1
      else
        .success
          { st1 with
            treatments := st1.treatments ++
              [{ id := st.nextTreatmentId, appointment_id := appointment_id,
                 diagnosis := diagnosis, prescription := prescription,
                 notes := notes }],
            nextTreatmentId := st.nextTreatmentId + 1 }

/-- Outcomes of the availability-creation POST handler. -/
inductive AddSlotOutcome where
  | unauthorized
  | missingInput
  | invalidFormat
  | validationError
  | overlapError
  | success (st : AppState)
  deriving DecidableEq, Repr

/-- Model of the POST branch of doctor_availability (slot creation): reject
missing input, then unparsable input, then a slot whose end is not after its
start, then a slot overlapping an existing same-doctor same-date slot under
the half-open test (existing.start less than new.end and existing.end greater
than new.start); otherwise persist the slot. -/
def doctor_availability (st : AppState) (userId : Nat) (role : String)
    (date_str start_str end_str : String) : AddSlotOutcome :=
  if role ≠ "doctor" then .unauthorized
  else if date_str = "" ∨ start_str = "" ∨ end_str = "" then .missingInput
  else
    match strptimeDate date_str, strptimeTime start_str, strptimeTime end_str with
    | some d, some startT, some endT =>
      if endT.key ≤ startT.key then .validationError
      else if st.availabilities.any fun s =>
          s.doctor_id == userId && s.date == d
            && decide (s.start_time.key < endT.key)
            && decide (startT.key < s.end_time.key) then
        .overlapError
      else
        .success
          { st with
            availabilities := st.availabilities ++
              [{ id := st.nextSlotId, doctor_id := userId, date := d,
                 start_time := startT, end_time := endT }],
            nextSlotId := st.nextSlotId + 1 }
    | _, _, _ => .invalidFormat

/-- Outcomes of the availability-deletion handler. -/
inductive RemoveSlotOutcome where
  | unauthorized
  | notFound
  | success (st : AppState)
  deriving DecidableEq, Repr

/-- Model of doctor_delete_availability: first_or_404 on (slot id, acting
doctor), then deletion of that row.  No other table is touched. -/
def doctor_delete_availability (st : AppState) (userId : Nat) (role : String)
    (slot_id : Nat) : RemoveSlotOutcome :=
  if role ≠ "doctor" then .unauthorized
  else if st.availabilities.any fun s => s.id == slot_id && s.doctor_id == userId then
    .success
      { st with
        availabilities := removeFirst
          (fun s => s.id == slot_id && s.doctor_id == userId) st.availabilities }
  else .notFound

/-- Resulting state of a booking outcome, the given default when no commit
happened. -/
def BookOutcome.stateD (o : BookOutcome) (d : AppState) : AppState :=
  match o with
  | .success st _ => st
  | _ => d

/-- Resulting state of a cancellation outcome. -/
def CancelOutcome.stateD (o : CancelOutcome) (d : AppState) : AppState :=
  match o with
  | .success st => st
  | _ => d

/-- Resulting state of a reschedule outcome. -/
def RescheduleOutcome.stateD (o : RescheduleOutcome) (d : AppState) : AppState :=
  match o with
  | .success st => st
  | _ => d

/-- Resulting state of a completion outcome. -/
def CompleteOutcome.stateD (o : CompleteOutcome) (d : AppState) : AppState :=
  match o with
  | .success st => st
  | _ => d

/-- Resulting state of a slot-deletion outcome. -/
def RemoveSlotOutcome.stateD (o : RemoveSlotOutcome) (d : AppState) : AppState :=
  match o with
  | .success st => st
  | _ => d

/-- Constructor tag of a booking outcome, used to state that two invocations
take the same branch. -/
def BookOutcome.tag : BookOutcome → Nat
  | .unauthorized => 0
  | .missingInput => 1
  | .invalidFormat => 2
  | .crash => 3
  | .conflict => 4
  | .success _ _ => 5

/-- One appointment-lifecycle handler invocation with its actor and raw
inputs. -/
inductive Op where
  | book (userId : Nat) (role doctor_id date_str time_str : String)
  | cancel (userId : Nat) (role : String) (appointment_id : Nat) (now : PDateTime)
  | reschedule (userId : Nat) (role : String) (appointment_id : Nat)
      (date_str time_str : String)
  | complete (userId : Nat) (role : String) (appointment_id : Nat)
      (diagnosis prescription notes : String)
  deriving DecidableEq, Repr

/-- State reached after one handler invocation (unchanged unless the handler
committed). -/
def applyOp (st : AppState) : Op → AppState
  | .book u r di ds ts => (patient_create_appointment st u r di ds ts).stateD st
  | .cancel u r i now => (patient_cancel_appointment st u r i now).stateD st
  | .reschedule u r i ds ts => (patient_reschedule_appointment st u r i ds ts).stateD st
  | .complete u r i d p n => (doctor_complete_appointment st u r i d p n).stateD st

/-- State reached after a sequence of handler invocations. -/
def applyOps (st : AppState) (ops : List Op) : AppState :=
  ops.foldl applyOp st

/-- Whether an operation is a completion. -/
def Op.isCompleteOp : Op → Bool
  | .complete _ _ _ _ _ _ => true
  | _ => false

/-- At most one non-Cancelled appointment per doctor and timestamp: any two
rows occupying the same slot with status other than Cancelled have the same
primary key. -/
def UniqueSlot (l : List Appointment) : Prop :=
  ∀ a ∈ l, ∀ b ∈ l, a.status ≠ "Cancelled" → b.status ≠ "Cancelled" →
    a.doctor_id = b.doctor_id → a.date_time = b.date_time → a.id = b.id

instance (l : List Appointment) : Decidable (UniqueSlot l) := by
  unfold UniqueSlot; infer_instance

/-- Store well-formedness: appointment primary keys are pairwise distinct and
below the next autoincrement value. -/
def WF (st : AppState) : Prop :=
  (st.appointments.map Appointment.id).Nodup ∧
    ∀ a ∈ st.appointments, a.id < st.nextApptId

instance (st : AppState) : Decidable (WF st) := by
  unfold WF; infer_instance

/-! ### Basic facts about the store operations -/

theorem hasConflict_eq_false_iff {l : List Appointment} {d : Nat} {dt : PDateTime}
    {e : Option Nat} :
    hasConflict l d dt e = false ↔ ∀ a ∈ l, ¬ conflictsWith d dt e a := by
  simp [hasConflict, List.any_eq_false]

theorem hasConflict_eq_true_iff {l : List Appointment} {d : Nat} {dt : PDateTime}
    {e : Option Nat} :
    hasConflict l d dt e = true ↔ ∃ a ∈ l, conflictsWith d dt e a := by
  simp [hasConflict, List.any_eq_true]

theorem findPatientAppt_spec {l : List Appointment} {i u : Nat} {a : Appointment}
    (h : findPatientAppt l i u = some a) : a ∈ l ∧ a.id = i ∧ a.patient_id = u := by
  refine ⟨List.mem_of_find?_eq_some h, ?_, ?_⟩ <;>
    · have hp := List.find?_some h
      simp only [Bool.and_eq_true, beq_iff_eq] at hp
      tauto

theorem findDoctorAppt_spec {l : List Appointment} {i u : Nat} {a : Appointment}
    (h : findDoctorAppt l i u = some a) : a ∈ l ∧ a.id = i ∧ a.doctor_id = u := by
  refine ⟨List.mem_of_find?_eq_some h, ?_, ?_⟩ <;>
    · have hp := List.find?_some h
      simp only [Bool.and_eq_true, beq_iff_eq] at hp
      tauto

theorem mem_updateById {l : List Appointment} {i : Nat}
    {f : Appointment → Appointment} {b : Appointment} :
    b ∈ updateById l i f ↔ ∃ a ∈ l, (if a.id = i then f a else a) = b := by
  simp [updateById, List.mem_map]

theorem updateById_map_id {l : List Appointment} {i : Nat}
    {f : Appointment → Appointment} (hid : ∀ a, (f a).id = a.id) :
    (updateById l i f).map Appointment.id = l.map Appointment.id := by
  simp only [updateById, List.map_map]
  congr 1
  funext a
  by_cases h : a.id = i <;> simp [h, hid]

theorem findPatientAppt_updateById (f : Appointment → Appointment)
    {l : List Appointment} {j i u : Nat}
    (hid : ∀ a, (f a).id = a.id) (hpat : ∀ a, (f a).patient_id = a.patient_id) :
    findPatientAppt (updateById l j f) i u
      = (findPatientAppt l i u).map (fun a => if a.id = j then f a else a) := by
  unfold findPatientAppt updateById
  rw [List.find?_map]
  have hpred : ((fun a : Appointment => a.id == i && a.patient_id == u) ∘
      fun a => if a.id = j then f a else a)
      = fun a : Appointment => a.id == i && a.patient_id == u := by
    funext a
    by_cases h : a.id = j <;> simp [Function.comp, h, hid, hpat]
  rw [hpred]

theorem eq_of_mem_of_id_eq {l : List Appointment}
    (hnd : (l.map Appointment.id).Nodup) {a b : Appointment}
    (ha : a ∈ l) (hb : b ∈ l) (h : a.id = b.id) : a = b :=
  List.inj_on_of_nodup_map hnd ha hb h

/-! ### Preservation of well-formedness and of the uniqueness invariant -/

theorem uniqueSlot_book_append {l : List Appointment} (hinv : UniqueSlot l)
    {did nid u : Nat} {dt : PDateTime}
    (hnc : hasConflict l did dt none = false) :
    UniqueSlot (l ++ [{ id := nid, patient_id := u, doctor_id := did,
                        date_time := dt, status := "Booked" }]) := by
  have hall := hasConflict_eq_false_iff.mp hnc
  intro a ha b hb hsa hsb hdoc hdt
  rcases List.mem_append.mp ha with ha | ha <;>
    rcases List.mem_append.mp hb with hb | hb
  · exact hinv a ha b hb hsa hsb hdoc hdt
  · simp only [List.mem_singleton] at hb
    subst hb
    exact absurd (⟨by simpa using hdoc, by simpa using hdt, hsa,
      fun i hi => by cases hi⟩ : conflictsWith did dt none a) (hall a ha)
  · simp only [List.mem_singleton] at ha
    subst ha
    exact absurd (⟨by simpa using hdoc.symm, by simpa using hdt.symm, hsb,
      fun i hi => by cases hi⟩ : conflictsWith did dt none b) (hall b hb)
  · simp only [List.mem_singleton] at ha hb
    subst ha
    subst hb
    rfl

theorem uniqueSlot_cancelUpdate {l : List Appointment} (hinv : UniqueSlot l)
    (i : Nat) :
    UniqueSlot (updateById l i (fun a => { a with status := "Cancelled" })) := by
  intro b1 h1 b2 h2 hs1 hs2 hdoc hdt
  rcases mem_updateById.mp h1 with ⟨a1, ha1, he1⟩
  rcases mem_updateById.mp h2 with ⟨a2, ha2, he2⟩
  by_cases k1 : a1.id = i
  · rw [if_pos k1] at he1
    subst he1
    simp at hs1
  · rw [if_neg k1] at he1
    subst he1
    by_cases k2 : a2.id = i
    · rw [if_pos k2] at he2
      subst he2
      simp at hs2
    · rw [if_neg k2] at he2
      subst he2
      exact hinv a1 ha1 a2 ha2 hs1 hs2 hdoc hdt

theorem uniqueSlot_reschedUpdate {l : List Appointment}
    (hnd : (l.map Appointment.id).Nodup) (hinv : UniqueSlot l)
    {appt : Appointment} (hmem : appt ∈ l) {dt : PDateTime}
    (hnc : hasConflict l appt.doctor_id dt (some appt.id) = false) :
    UniqueSlot (updateById l appt.id (fun a => { a with date_time := dt })) := by
  have hall := hasConflict_eq_false_iff.mp hnc
  intro b1 h1 b2 h2 hs1 hs2 hdoc hdt
  rcases mem_updateById.mp h1 with ⟨a1, ha1, he1⟩
  rcases mem_updateById.mp h2 with ⟨a2, ha2, he2⟩
  by_cases k1 : a1.id = appt.id <;> by_cases k2 : a2.id = appt.id
  · rw [if_pos k1] at he1
    rw [if_pos k2] at he2
    subst he1
    subst he2
    simpa using k1.trans k2.symm
  · rw [if_pos k1] at he1
    rw [if_neg k2] at he2
    subst he1
    subst he2
    have ha1e : a1 = appt := eq_of_mem_of_id_eq hnd ha1 hmem k1
    subst ha1e
    exact absurd (⟨by simpa using hdoc.symm, by simpa using hdt.symm, hs2,
      fun i hi => by injection hi with hi; exact fun h => k2 (h.trans hi.symm)⟩ :
        conflictsWith a1.doctor_id dt (some a1.id) a2) (hall a2 ha2)
  · rw [if_neg k1] at he1
    rw [if_pos k2] at he2
    subst he1
    subst he2
    have ha2e : a2 = appt := eq_of_mem_of_id_eq hnd ha2 hmem k2
    subst ha2e
    exact absurd (⟨by simpa using hdoc, by simpa using hdt, hs1,
      fun i hi => by injection hi with hi; exact fun h => k1 (h.trans hi.symm)⟩ :
        conflictsWith a2.doctor_id dt (some a2.id) a1) (hall a1 ha1)
  · rw [if_neg k1] at he1
    rw [if_neg k2] at he2
    subst he1
    subst he2
    exact hinv a1 ha1 a2 ha2 hs1 hs2 hdoc hdt

theorem WF_of_fields {st st' : AppState} (hwf : WF st)
    (happ : st'.appointments = st.appointments)
    (hnext : st'.nextApptId = st.nextApptId) : WF st' := by
  unfold WF at *
  rw [happ, hnext]
  exact hwf

theorem WF_updateById {st st' : AppState} (hwf : WF st) {i : Nat}
    {f : Appointment → Appointment}
    (happ : st'.appointments = updateById st.appointments i f)
    (hnext : st'.nextApptId = st.nextApptId)
    (hid : ∀ a, (f a).id = a.id) : WF st' := by
  obtain ⟨hnd, hbound⟩ := hwf
  constructor
  · rw [happ, updateById_map_id hid]
    exact hnd
  · intro a ha
    rw [happ] at ha
    rcases mem_updateById.mp ha with ⟨b, hb, he⟩
    rw [hnext]
    by_cases k : b.id = i
    · rw [if_pos k] at he
      subst he
      rw [hid]
      exact hbound b hb
    · rw [if_neg k] at he
      subst he
      exact hbound b hb

theorem WF_book_append {st : AppState} (hwf : WF st) {u did : Nat}
    {dt : PDateTime} :
    WF { st with
      appointments := st.appointments ++
        [{ id := st.nextApptId, patient_id := u, doctor_id := did,
           date_time := dt, status := "Booked" }],
      nextApptId := st.nextApptId + 1 } := by
  obtain ⟨hnd, hbound⟩ := hwf
  constructor
  · show (List.map Appointment.id (st.appointments ++ [_])).Nodup
    rw [List.map_append, List.nodup_append]
    refine ⟨hnd, by simp, ?_⟩
    intro x hx hx2
    simp only [List.map_cons, List.map_nil, List.mem_singleton] at hx2
    rcases List.mem_map.mp hx with ⟨a, ha, rfl⟩
    exact absurd hx2 (Nat.ne_of_lt (hbound a ha))
  · intro a ha
    rcases List.mem_append.mp ha with ha | ha
    · exact Nat.lt_succ_of_lt (hbound a ha)
    · simp only [List.mem_singleton] at ha
      subst ha
      exact Nat.lt_succ_self _

/-! ### Case analyses of the committed states of each handler -/

theorem book_stateD_cases (st : AppState) (u : Nat) (r di ds ts : String) :
    (patient_create_appointment st u r di ds ts).stateD st = st ∨
    ∃ dt did, strptimeDateTime ds ts = some dt ∧ pyInt? di = some did ∧
      hasConflict st.appointments did dt none = false ∧
      (patient_create_appointment st u r di ds ts).stateD st =
        { st with
          appointments := st.appointments ++
            [{ id := st.nextApptId, patient_id := u, doctor_id := did,
               date_time := dt, status := "Booked" }],
          nextApptId := st.nextApptId + 1 } := by
  unfold patient_create_appointment
  split
  · exact Or.inl rfl
  split
  · exact Or.inl rfl
  split
  · exact Or.inl rfl
  next dt hdt =>
    split
    · exact Or.inl rfl
    next did hdid =>
      split
      · exact Or.inl rfl
      next hnc =>
        exact Or.inr ⟨dt, did, hdt, hdid, by simpa using hnc, rfl⟩

theorem cancel_stateD_cases (st : AppState) (u : Nat) (r : String) (i : Nat)
    (now : PDateTime) :
    (patient_cancel_appointment st u r i now).stateD st = st ∨
    (patient_cancel_appointment st u r i now).stateD st =
      { st with
        appointments :=
          updateById st.appointments i
            (fun a => { a with status := "Cancelled" }) } := by
  unfold patient_cancel_appointment
  split
  · exact Or.inl rfl
  split
  · exact Or.inl rfl
  split
  · exact Or.inl rfl
  split
  · exact Or.inl rfl
  · exact Or.inr rfl

theorem resched_stateD_cases (st : AppState) (u : Nat) (r : String) (i : Nat)
    (ds ts : String) :
    (patient_reschedule_appointment st u r i ds ts).stateD st = st ∨
    ∃ appt dt, findPatientAppt st.appointments i u = some appt ∧
      strptimeDateTime ds ts = some dt ∧
      hasConflict st.appointments appt.doctor_id dt (some appt.id) = false ∧
      (patient_reschedule_appointment st u r i ds ts).stateD st =
        { st with
          appointments :=
            updateById st.appointments i
              (fun a => { a with date_time := dt }) } := by
  unfold patient_reschedule_appointment
  split
  · exact Or.inl rfl
  split
  · exact Or.inl rfl
  next appt hfind =>
    split
    · exact Or.inl rfl
    split
    · exact Or.inl rfl
    split
    · exact Or.inl rfl
    next dt hdt =>
      split
      · exact Or.inl rfl
      next hnc =>
        exact Or.inr ⟨appt, dt, hfind, hdt, by simpa using hnc, rfl⟩

theorem complete_stateD_appointments (st : AppState) (u : Nat) (r : String)
    (i : Nat) (d p n : String) :
    ((doctor_complete_appointment st u r i d p n).stateD st).appointments
        = st.appointments ∨
    ((doctor_complete_appointment st u r i d p n).stateD st).appointments
        = updateById st.appointments i
            (fun a => { a with status := "Completed" }) := by
  unfold doctor_complete_appointment
  split
  · exact Or.inl rfl
  split
  · exact Or.inl rfl
  · split
    · exact Or.inr rfl
    · exact Or.inr rfl

theorem complete_stateD_nextApptId (st : AppState) (u : Nat) (r : String)
    (i : Nat) (d p n : String) :
    ((doctor_complete_appointment st u r i d p n).stateD st).nextApptId
        = st.nextApptId := by
  unfold doctor_complete_appointment
  split
  · rfl
  split
  · rfl
  · split
    · rfl
    · rfl

theorem WF_applyOp (st : AppState) (hwf : WF st) (op : Op) :
    WF (applyOp st op) := by
  cases op with
  | book u r di ds ts =>
    rcases book_stateD_cases st u r di ds ts with h | ⟨dt, did, _, _, _, h⟩
    · simp only [applyOp]
      rw [h]
      exact hwf
    · simp only [applyOp]
      rw [h]
      exact WF_book_append hwf
  | cancel u r i now =>
    rcases cancel_stateD_cases st u r i now with h | h
    · simp only [applyOp]
      rw [h]
      exact hwf
    · simp only [applyOp]
      rw [h]
      exact WF_updateById hwf rfl rfl (fun a => rfl)
  | reschedule u r i ds ts =>
    rcases resched_stateD_cases st u r i ds ts with h | ⟨appt, dt, _, _, _, h⟩
    · simp only [applyOp]
      rw [h]
      exact hwf
    · simp only [applyOp]
      rw [h]
      exact WF_updateById hwf rfl rfl (fun a => rfl)
  | complete u r i d p n =>
    have happ := complete_stateD_appointments st u r i d p n
    have hnext := complete_stateD_nextApptId st u r i d p n
    simp only [applyOp]
    rcases happ with h | h
    · exact WF_of_fields hwf h hnext
    · exact WF_updateById hwf h hnext (fun a => rfl)

theorem uniqueSlot_applyOp (st : AppState) (hwf : WF st)
    (hinv : UniqueSlot st.appointments) (op : Op)
    (hop : op.isCompleteOp = false) :
    UniqueSlot (applyOp st op).appointments := by
  cases op with
  | complete u r i d p n => simp [Op.isCompleteOp] at hop
  | book u r di ds ts =>
    rcases book_stateD_cases st u r di ds ts with h | ⟨dt, did, _, _, hnc, h⟩
    · simp only [applyOp]
      rw [h]
      exact hinv
    · simp only [applyOp]
      rw [h]
      exact uniqueSlot_book_append hinv hnc
  | cancel u r i now =>
    rcases cancel_stateD_cases st u r i now with h | h
    · simp only [applyOp]
      rw [h]
      exact hinv
    · simp only [applyOp]
      rw [h]
      exact uniqueSlot_cancelUpdate hinv i
  | reschedule u r i ds ts =>
    rcases resched_stateD_cases st u r i ds ts with h | ⟨appt, dt, hfind, _, hnc, h⟩
    · simp only [applyOp]
      rw [h]
      exact hinv
    · simp only [applyOp]
      rw [h]
      obtain ⟨hmem, hid, _⟩ := findPatientAppt_spec hfind
      have hiq : updateById st.appointments i (fun a => { a with date_time := dt })
          = updateById st.appointments appt.id (fun a => { a with date_time := dt }) := by
        rw [hid]
      show UniqueSlot
        (updateById st.appointments i (fun a => { a with date_time := dt }))
      rw [hiq]
      exact uniqueSlot_reschedUpdate hwf.1 hinv hmem hnc

theorem uniqueSlot_applyOps (ops : List Op) :
    ∀ st : AppState, WF st → UniqueSlot st.appointments →
      (∀ op ∈ ops, op.isCompleteOp = false) →
      WF (applyOps st ops) ∧ UniqueSlot (applyOps st ops).appointments := by
  induction ops with
  | nil => exact fun st hwf hinv _ => ⟨hwf, hinv⟩
  | cons op ops ih =>
    intro st hwf hinv hall
    have h1 := WF_applyOp st hwf op
    have h2 := uniqueSlot_applyOp st hwf hinv op (hall op (by simp))
    have hfold : applyOps st (op :: ops) = applyOps (applyOp st op) ops := rfl
    rw [hfold]
    exact ih (applyOp st op) h1 h2 (fun o ho => hall o (by simp [ho]))

/-! ### Claim C1 -/

/-- Initial store for the uniqueness counterexample: empty tables. -/
def stSeq : AppState := ⟨[], [], [], [], 1, 1, 1⟩

/-- Book doctor 2 at 2024-06-01 10:00, cancel that appointment, book the
freed slot again for another patient, then have doctor 2 complete the
cancelled appointment: completion resurrects it into the occupied slot. -/
def opsSeq : List Op :=
  [ .book 7 "patient" "2" "2024-06-01" "10:00",
    .cancel 7 "patient" 1 ⟨2024, 5, 1, 0, 0⟩,
    .book 8 "patient" "2" "2024-06-01" "10:00",
    .complete 2 "doctor" 1 "flu" "rest" "recheck" ]

/-- Claim C1 is false as stated: starting from a well-formed store satisfying
the uniqueness invariant, the four-step sequence book, cancel, book, complete
ends in a store with two non-Cancelled appointments of doctor 2 at
2024-06-01 10:00, so not every sequence of book, reschedule, cancel and
complete operations preserves the invariant. -/
theorem uniqueness_not_preserved_by_sequences :
    WF stSeq ∧ UniqueSlot stSeq.appointments ∧
      ¬ UniqueSlot (applyOps stSeq opsSeq).appointments := by
  decide

/-- Claim C1 (amended): booking into an occupied slot fails with the conflict
error, rescheduling onto a slot occupied by another appointment fails with
the conflict error, and every sequence of book, reschedule and cancel
operations preserves the invariant that at most one non-Cancelled appointment
exists per doctor and timestamp; the complete operation is excluded, since it
can move a Cancelled appointment back into an occupied slot. -/
theorem uniqueness_invariant (st : AppState) (hwf : WF st)
    (hinv : UniqueSlot st.appointments) :
    (∀ (u : Nat) (di ds ts : String) (dt : PDateTime) (did : Nat),
      di ≠ "" → ds ≠ "" → ts ≠ "" →
      strptimeDateTime ds ts = some dt → pyInt? di = some did →
      hasConflict st.appointments did dt none = true →
      patient_create_appointment st u "patient" di ds ts = .conflict) ∧
    (∀ (u i : Nat) (ds ts : String) (dt : PDateTime) (appt : Appointment),
      findPatientAppt st.appointments i u = some appt →
      appt.status = "Booked" → ds ≠ "" → ts ≠ "" →
      strptimeDateTime ds ts = some dt →
      hasConflict st.appointments appt.doctor_id dt (some appt.id) = true →
      patient_reschedule_appointment st u "patient" i ds ts = .conflict) ∧
    (∀ ops : List Op, (∀ op ∈ ops, op.isCompleteOp = false) →
      UniqueSlot (applyOps st ops).appointments) := by
  refine ⟨?_, ?_, ?_⟩
  · intro u di ds ts dt did hdi hds hts hdt hdid hc
    simp [patient_create_appointment, hdi, hds, hts, hdt, hdid, hc]
  · intro u i ds ts dt appt hfind hb hds hts hdt hc
    simp [patient_reschedule_appointment, hfind, hb, hds, hts, hdt, hc]
  · exact fun ops hops => (uniqueSlot_applyOps ops st hwf hinv hops).2

/-- Store for the C1 witness: two booked appointments of doctor 2. -/
def stBusy : AppState :=
  ⟨[], [⟨1, 7, 2, ⟨2024, 6, 1, 10, 0⟩, "Booked"⟩,
        ⟨2, 8, 2, ⟨2024, 6, 1, 11, 0⟩, "Booked"⟩], [], [], 3, 1, 1⟩

/-- Witness for the amended claim C1 at a concrete store: a conflicting
booking fails, a conflicting reschedule fails, and a concrete book-cancel
sequence keeps the invariant. -/
theorem uniqueness_invariant_witness :
    patient_create_appointment stBusy 9 "patient" "2" "2024-06-01" "10:00"
      = .conflict ∧
    patient_reschedule_appointment stBusy 7 "patient" 1 "2024-06-01" "11:00"
      = .conflict ∧
    UniqueSlot (applyOps stBusy
      [Op.book 9 "patient" "2" "2024-06-02" "10:00",
       Op.cancel 7 "patient" 1 ⟨2024, 5, 1, 0, 0⟩]).appointments := by
  have h := uniqueness_invariant stBusy (by decide) (by decide)
  refine ⟨?_, ?_, ?_⟩
  · exact h.1 9 "2" "2024-06-01" "10:00" ⟨2024, 6, 1, 10, 0⟩ 2 (by decide)
      (by decide) (by decide) (by decide) (by decide) (by decide)
  · exact h.2.1 7 1 "2024-06-01" "11:00" ⟨2024, 6, 1, 11, 0⟩
      ⟨1, 7, 2, ⟨2024, 6, 1, 10, 0⟩, "Booked"⟩ (by decide) (by decide)
      (by decide) (by decide) (by decide) (by decide)
  · exact h.2.2
      [Op.book 9 "patient" "2" "2024-06-02" "10:00",
       Op.cancel 7 "patient" 1 ⟨2024, 5, 1, 0, 0⟩] (by decide)

/-! ### Claim C4 -/

/-- Claim C4: cancel fails with the state error unless the appointment is
Booked, fails with the past-date error when its timestamp is strictly before
the current time, and otherwise marks the appointment Cancelled; a second
cancel of the same appointment then fails with the state error. -/
theorem cancel_spec (st : AppState) (u i : Nat) (now now2 : PDateTime)
    (appt : Appointment)
    (hfind : findPatientAppt st.appointments i u = some appt) :
    (appt.status ≠ "Booked" →
      patient_cancel_appointment st u "patient" i now = .stateError) ∧
    (appt.status = "Booked" → dtBefore appt.date_time now = true →
      patient_cancel_appointment st u "patient" i now = .pastDate) ∧
    (appt.status = "Booked" → dtBefore appt.date_time now = false →
      ∃ st2, patient_cancel_appointment st u "patient" i now = .success st2 ∧
        (∀ a ∈ st2.appointments, a.id = i → a.status = "Cancelled") ∧
        (∀ a ∈ st2.appointments, a.id ≠ i → a ∈ st.appointments) ∧
        patient_cancel_appointment st2 u "patient" i now2 = .stateError) := by
  obtain ⟨hmem, hid, hpat⟩ := findPatientAppt_spec hfind
  refine ⟨?_, ?_, ?_⟩
  · intro hs
    simp [patient_cancel_appointment, hfind, hs]
  · intro hs hp
    simp [patient_cancel_appointment, hfind, hs, hp]
  · intro hs hp
    refine ⟨{ st with
        appointments :=
          updateById st.appointments i
            (fun a => { a with status := "Cancelled" }) }, ?_, ?_, ?_, ?_⟩
    · simp [patient_cancel_appointment, hfind, hs, hp]
    · intro a ha hai
      rcases mem_updateById.mp ha with ⟨b, hb, he⟩
      by_cases k : b.id = i
      · rw [if_pos k] at he
        subst he
        rfl
      · rw [if_neg k] at he
        subst he
        exact absurd hai k
    · intro a ha hai
      rcases mem_updateById.mp ha with ⟨b, hb, he⟩
      by_cases k : b.id = i
      · rw [if_pos k] at he
        subst he
        exact absurd k hai
      · rw [if_neg k] at he
        subst he
        exact hb
    · have hfind2 : findPatientAppt
          (updateById st.appointments i
            (fun a => { a with status := "Cancelled" })) i u
          = some { appt with status := "Cancelled" } := by
        rw [findPatientAppt_updateById
          (fun a => { a with status := "Cancelled" })
          (fun a => rfl) (fun a => rfl), hfind]
        simp [hid]
      simp [patient_cancel_appointment, hfind2]

/-- Store for the C4 witness: one booked future appointment. -/
def stCancel : AppState :=
  ⟨[], [⟨1, 7, 2, ⟨2024, 6, 1, 10, 0⟩, "Booked"⟩], [], [], 2, 1, 1⟩

/-- Witness for claim C4: cancelling the booked future appointment succeeds
and marks it Cancelled; cancelling again fails with the state error. -/
theorem cancel_spec_witness :
    ∃ st2, patient_cancel_appointment stCancel 7 "patient" 1
        ⟨2024, 5, 1, 0, 0⟩ = .success st2 ∧
      (∀ a ∈ st2.appointments, a.id = 1 → a.status = "Cancelled") ∧
      (∀ a ∈ st2.appointments, a.id ≠ 1 → a ∈ stCancel.appointments) ∧
      patient_cancel_appointment st2 7 "patient" 1 ⟨2024, 5, 2, 0, 0⟩
        = .stateError :=
  (cancel_spec stCancel 7 1 ⟨2024, 5, 1, 0, 0⟩ ⟨2024, 5, 2, 0, 0⟩
      ⟨1, 7, 2, ⟨2024, 6, 1, 10, 0⟩, "Booked"⟩ (by decide)).2.2
    (by decide) (by decide)

/-! ### Claim C6 -/

/-- Claim C6: reschedule fails with the state error unless the appointment is
currently Booked, fails with the conflict error when a non-Cancelled
appointment of the same doctor other than the one being moved occupies the
new timestamp, and otherwise mutates only the date_time of the appointment in
place, leaving its status, patient and doctor unchanged and every other row
of every table untouched. -/
theorem reschedule_spec (st : AppState) (hwf : WF st) (u i : Nat)
    (ds ts : String) (dt : PDateTime) (appt : Appointment)
    (hfind : findPatientAppt st.appointments i u = some appt) :
    (appt.status ≠ "Booked" →
      patient_reschedule_appointment st u "patient" i ds ts = .stateError) ∧
    (appt.status = "Booked" → ds ≠ "" → ts ≠ "" →
      strptimeDateTime ds ts = some dt →
      hasConflict st.appointments appt.doctor_id dt (some appt.id) = true →
      patient_reschedule_appointment st u "patient" i ds ts = .conflict) ∧
    (appt.status = "Booked" → ds ≠ "" → ts ≠ "" →
      strptimeDateTime ds ts = some dt →
      hasConflict st.appointments appt.doctor_id dt (some appt.id) = false →
      ∃ st2, patient_reschedule_appointment st u "patient" i ds ts
          = .success st2 ∧
        st2.appointments =
          updateById st.appointments i (fun a => { a with date_time := dt }) ∧
        { appt with date_time := dt } ∈ st2.appointments ∧
        (∀ a ∈ st2.appointments, a.id = i → a = { appt with date_time := dt }) ∧
        (∀ a ∈ st2.appointments, a.id ≠ i → a ∈ st.appointments) ∧
        st2.users = st.users ∧ st2.treatments = st.treatments ∧
        st2.availabilities = st.availabilities) := by
  obtain ⟨hmem, hid, hpat⟩ := findPatientAppt_spec hfind
  refine ⟨?_, ?_, ?_⟩
  · intro hs
    simp [patient_reschedule_appointment, hfind, hs]
  · intro hs hds hts hdt hc
    simp [patient_reschedule_appointment, hfind, hs, hds, hts, hdt, hc]
  · intro hs hds hts hdt hnc
    refine ⟨{ st with
        appointments :=
          updateById st.appointments i
            (fun a => { a with date_time := dt }) }, ?_, rfl, ?_, ?_, ?_,
        rfl, rfl, rfl⟩
    · simp [patient_reschedule_appointment, hfind, hs, hds, hts, hdt, hnc]
    · exact mem_updateById.mpr ⟨appt, hmem, by rw [if_pos hid]⟩
    · intro a ha hai
      rcases mem_updateById.mp ha with ⟨b, hb, he⟩
      by_cases k : b.id = i
      · rw [if_pos k] at he
        have hbe : b = appt :=
          eq_of_mem_of_id_eq hwf.1 hb hmem (k.trans hid.symm)
        rw [← he, hbe]
      · rw [if_neg k] at he
        subst he
        exact absurd hai k
    · intro a ha hai
      rcases mem_updateById.mp ha with ⟨b, hb, he⟩
      by_cases k : b.id = i
      · rw [if_pos k] at he
        subst he
        exact absurd k hai
      · rw [if_neg k] at he
        subst he
        exact hb

/-- Store for the C6 witness: doctor 2 has booked appointments at 10:00 and
11:00 on 2024-06-01, and patient 7 owns the first one. -/
def stResched : AppState :=
  ⟨[], [⟨1, 7, 2, ⟨2024, 6, 1, 10, 0⟩, "Booked"⟩,
        ⟨2, 8, 2, ⟨2024, 6, 1, 11, 0⟩, "Booked"⟩], [], [], 3, 1, 1⟩

/-- Witness for claim C6: moving appointment 1 onto the occupied 11:00 slot
fails with the conflict error, and moving it to the free 12:00 slot succeeds
and rewrites only its date_time. -/
theorem reschedule_spec_witness :
    patient_reschedule_appointment stResched 7 "patient" 1 "2024-06-01" "11:00"
      = .conflict ∧
    (∃ st2, patient_reschedule_appointment stResched 7 "patient" 1
        "2024-06-01" "12:00" = .success st2 ∧
      st2.appointments =
        updateById stResched.appointments 1
          (fun a => { a with date_time := ⟨2024, 6, 1, 12, 0⟩ }) ∧
      { id := 1, patient_id := 7, doctor_id := 2,
        date_time := ⟨2024, 6, 1, 12, 0⟩, status := "Booked" }
          ∈ st2.appointments ∧
      (∀ a ∈ st2.appointments, a.id = 1 →
        a = { id := 1, patient_id := 7, doctor_id := 2,
              date_time := ⟨2024, 6, 1, 12, 0⟩, status := "Booked" }) ∧
      (∀ a ∈ st2.appointments, a.id ≠ 1 → a ∈ stResched.appointments) ∧
      st2.users = stResched.users ∧ st2.treatments = stResched.treatments ∧
      st2.availabilities = stResched.availabilities) := by
  constructor
  · exact (reschedule_spec stResched (by decide) 7 1 "2024-06-01" "11:00"
      ⟨2024, 6, 1, 11, 0⟩ ⟨1, 7, 2, ⟨2024, 6, 1, 10, 0⟩, "Booked"⟩
      (by decide)).2.1 (by decide) (by decide) (by decide) (by decide)
      (by decide)
  · exact (reschedule_spec stResched (by decide) 7 1 "2024-06-01" "12:00"
      ⟨2024, 6, 1, 12, 0⟩ ⟨1, 7, 2, ⟨2024, 6, 1, 10, 0⟩, "Booked"⟩
      (by decide)).2.2 (by decide) (by decide) (by decide) (by decide)
      (by decide)

/-! ### Claim C10 -/

/-- Claim C10: reschedule performs no past-date check: a Booked appointment
with no conflict can be rescheduled to a well-formed timestamp strictly
before the current time, and the resulting appointment can then no longer be
cancelled, because cancel, unlike reschedule, rejects past timestamps with
the past-date error. -/
theorem reschedule_allows_past_timestamps (st : AppState) (u i : Nat)
    (ds ts : String) (dt now : PDateTime) (appt : Appointment)
    (hfind : findPatientAppt st.appointments i u = some appt)
    (hbooked : appt.status = "Booked") (hds : ds ≠ "") (hts : ts ≠ "")
    (hdt : strptimeDateTime ds ts = some dt)
    (hpast : dtBefore dt now = true)
    (hnc : hasConflict st.appointments appt.doctor_id dt (some appt.id)
      = false) :
    ∃ st2, patient_reschedule_appointment st u "patient" i ds ts
        = .success st2 ∧
      (∀ a ∈ st2.appointments, a.id = i → a.date_time = dt) ∧
      patient_cancel_appointment st2 u "patient" i now = .pastDate := by
  obtain ⟨hmem, hid, hpat⟩ := findPatientAppt_spec hfind
  refine ⟨{ st with
      appointments :=
        updateById st.appointments i
          (fun a => { a with date_time := dt }) }, ?_, ?_, ?_⟩
  · simp [patient_reschedule_appointment, hfind, hbooked, hds, hts, hdt, hnc]
  · intro a ha hai
    rcases mem_updateById.mp ha with ⟨b, hb, he⟩
    by_cases k : b.id = i
    · rw [if_pos k] at he
      subst he
      rfl
    · rw [if_neg k] at he
      subst he
      exact absurd hai k
  · have hfind2 : findPatientAppt
        (updateById st.appointments i
          (fun a => { a with date_time := dt })) i u
        = some { appt with date_time := dt } := by
      rw [findPatientAppt_updateById
        (fun a => { a with date_time := dt })
        (fun a => rfl) (fun a => rfl), hfind]
      simp [hid]
    simp [patient_cancel_appointment, hfind2, hbooked, hpast]

/-- Store for the C10 witness: one booked future appointment, current time
2024-05-02 09:00. -/
def stPast : AppState :=
  ⟨[], [⟨1, 7, 2, ⟨2024, 6, 1, 10, 0⟩, "Booked"⟩], [], [], 2, 1, 1⟩

/-- Witness for claim C10: appointment 1 is rescheduled to 2024-05-01 10:00,
strictly before the current time 2024-05-02 09:00; the reschedule succeeds
and a subsequent cancel fails with the past-date error. -/
theorem reschedule_allows_past_timestamps_witness :
    ∃ st2, patient_reschedule_appointment stPast 7 "patient" 1
        "2024-05-01" "10:00" = .success st2 ∧
      (∀ a ∈ st2.appointments, a.id = 1 →
        a.date_time = ⟨2024, 5, 1, 10, 0⟩) ∧
      patient_cancel_appointment st2 7 "patient" 1 ⟨2024, 5, 2, 9, 0⟩
        = .pastDate :=
  reschedule_allows_past_timestamps stPast 7 1 "2024-05-01" "10:00"
    ⟨2024, 5, 1, 10, 0⟩ ⟨2024, 5, 2, 9, 0⟩
    ⟨1, 7, 2, ⟨2024, 6, 1, 10, 0⟩, "Booked"⟩ (by decide) (by decide)
    (by decide) (by decide) (by decide) (by decide) (by decide)

/-! ### Claim C9 -/

/-- Claim C9: complete has no status precondition: any appointment assigned
to the acting doctor, whatever its status (Cancelled and Completed included),
is accepted; the call succeeds, sets the status to Completed and ensures a
Treatment row for the appointment exists; consequently completing a
Cancelled appointment can resurrect a (doctor, date_time) conflict with a
booking made later into the freed slot. -/
theorem complete_no_status_precondition (st : AppState) (u i : Nat)
    (d p n : String) (appt : Appointment)
    (hfind : findDoctorAppt st.appointments i u = some appt) :
    (∃ st2, doctor_complete_appointment st u "doctor" i d p n
        = .success st2 ∧
      (∀ a ∈ st2.appointments, a.id = i → a.status = "Completed") ∧
      (∃ t ∈ st2.treatments, t.appointment_id = i)) ∧
    ¬ UniqueSlot (applyOps ⟨[], [], [], [], 1, 1, 1⟩
      [Op.book 5 "patient" "3" "2024-07-01" "09:00",
       Op.cancel 5 "patient" 1 ⟨2024, 6, 1, 0, 0⟩,
       Op.book 6 "patient" "3" "2024-07-01" "09:00",
       Op.complete 3 "doctor" 1 "cold" "tea" "rest"]).appointments := by
  constructor
  · have hstatus : ∀ a ∈ updateById st.appointments i
        (fun a => { a with status := "Completed" }), a.id = i →
        a.status = "Completed" := by
      intro a ha hai
      rcases mem_updateById.mp ha with ⟨b, hb, he⟩
      by_cases k : b.id = i
      · rw [if_pos k] at he
        subst he
        rfl
      · rw [if_neg k] at he
        subst he
        exact absurd hai k
    by_cases ht : (st.treatments.any fun t => t.appointment_id == i) = true
    · refine ⟨{ st with
          appointments :=
            updateById st.appointments i
              (fun a => { a with status := "Completed" }) }, ?_, hstatus, ?_⟩
      · simp [doctor_complete_appointment, hfind, ht]
      · rcases List.any_eq_true.mp ht with ⟨t, htmem, hteq⟩
        exact ⟨t, htmem, by simpa using hteq⟩
    · refine ⟨{ st with
          appointments :=
            updateById st.appointments i
              (fun a => { a with status := "Completed" }),
          treatments := st.treatments ++
            [{ id := st.nextTreatmentId, appointment_id := i,
               diagnosis := d, prescription := p,
               notes := n }],
          nextTreatmentId := st.nextTreatmentId + 1 }, ?_, hstatus, ?_⟩
      · simp [doctor_complete_appointment, hfind, ht]
      · exact ⟨{ id := st.nextTreatmentId, appointment_id := i,
                 diagnosis := d, prescription := p, notes := n },
          List.mem_append.mpr (Or.inr (by simp)), rfl⟩
  · decide

/-- Store for the C9 witness: one Cancelled appointment of doctor 2. -/
def stTerminal : AppState :=
  ⟨[], [⟨1, 7, 2, ⟨2024, 6, 1, 10, 0⟩, "Cancelled"⟩], [], [], 2, 1, 1⟩

/-- Witness for claim C9: completing a Cancelled appointment succeeds, moves
it to Completed and attaches a Treatment row. -/
theorem complete_no_status_precondition_witness :
    (∃ st2, doctor_complete_appointment stTerminal 2 "doctor" 1
        "flu" "rest" "recheck" = .success st2 ∧
      (∀ a ∈ st2.appointments, a.id = 1 → a.status = "Completed") ∧
      (∃ t ∈ st2.treatments, t.appointment_id = 1)) ∧
    ¬ UniqueSlot (applyOps ⟨[], [], [], [], 1, 1, 1⟩
      [Op.book 5 "patient" "3" "2024-07-01" "09:00",
       Op.cancel 5 "patient" 1 ⟨2024, 6, 1, 0, 0⟩,
       Op.book 6 "patient" "3" "2024-07-01" "09:00",
       Op.complete 3 "doctor" 1 "cold" "tea" "rest"]).appointments :=
  complete_no_status_precondition stTerminal 2 1 "flu" "rest" "recheck"
    ⟨1, 7, 2, ⟨2024, 6, 1, 10, 0⟩, "Cancelled"⟩ (by decide)

/-! ### Claim C5 -/

/-- Store for claim C5: one booked appointment of doctor 2, no treatments. -/
def stTreat : AppState :=
  ⟨[], [⟨1, 7, 2, ⟨2024, 6, 1, 10, 0⟩, "Booked"⟩], [], [], 2, 1, 1⟩

/-- Store after the first completion of appointment 1 with text d1, p1, n1:
the appointment is Completed and one Treatment row holds that text. -/
def stTreat1 : AppState :=
  ⟨[], [⟨1, 7, 2, ⟨2024, 6, 1, 10, 0⟩, "Completed"⟩],
   [⟨1, 1, "d1", "p1", "n1"⟩], [], 2, 2, 1⟩

/-- Claim C5 fails on the code: completing appointment 1 twice, first with
text d1, p1, n1 and then with different text d2, p2, n2, leaves the store
exactly as after the first call: a single Treatment row holding the FIRST
call text, because the update branch of the handler assigns the new text
onto the one-to-many backref collection object instead of the Treatment row.
The appointment status is Completed as claimed, but the second call text is
lost. -/
theorem complete_twice_keeps_first_text :
    doctor_complete_appointment stTreat 2 "doctor" 1 "d1" "p1" "n1"
      = .success stTreat1 ∧
    doctor_complete_appointment stTreat1 2 "doctor" 1 "d2" "p2" "n2"
      = .success stTreat1 ∧
    stTreat1.treatments = [⟨1, 1, "d1", "p1", "n1"⟩] ∧
    ∀ a ∈ stTreat1.appointments, a.status = "Completed" := by
  decide

/-! ### Claim C2 -/

/-- Store for claim C2: the only user is doctor 2, who is inactive. -/
def stInactive : AppState :=
  ⟨[⟨2, "doctor", false⟩], [], [], [], 1, 1, 1⟩

/-- Claim C2 fails on the code: the only doctor in the store is inactive,
yet the booking POST names that doctor and succeeds, creating a Booked
appointment; the active-only filter is applied solely to the doctor list
rendered into the form. -/
theorem booking_inactive_doctor_not_rejected :
    stInactive.users = [{ id := 2, role := "doctor", is_active_flag := false }] ∧
    patient_create_appointment stInactive 1 "patient" "2" "2024-06-01" "10:00"
      = .success
          ⟨[⟨2, "doctor", false⟩],
           [⟨1, 1, 2, ⟨2024, 6, 1, 10, 0⟩, "Booked"⟩], [], [], 2, 1, 1⟩
          ⟨1, 1, 2, ⟨2024, 6, 1, 10, 0⟩, "Booked"⟩ := by
  decide

/-- Claim C2 (amended): the booking POST handler checks neither the
existence nor the activity of the named doctor: its outcome constructor is
unchanged under an arbitrary replacement of the user table, and whenever the
inputs are well formed and no conflicting appointment exists it creates a
Booked appointment for the given doctor id, whatever that doctor's
is_active_flag; only the doctor list rendered into the form is restricted to
active doctors. -/
theorem booking_checks_no_doctor (st : AppState) :
    (∀ (U : List User) (u : Nat) (r di ds ts : String),
      (patient_create_appointment { st with users := U } u r di ds ts).tag
        = (patient_create_appointment st u r di ds ts).tag) ∧
    (∀ (u : Nat) (di ds ts : String) (dt : PDateTime) (did : Nat),
      di ≠ "" → ds ≠ "" → ts ≠ "" →
      strptimeDateTime ds ts = some dt → pyInt? di = some did →
      hasConflict st.appointments did dt none = false →
      patient_create_appointment st u "patient" di ds ts =
        .success
          { st with
            appointments := st.appointments ++
              [{ id := st.nextApptId, patient_id := u, doctor_id := did,
                 date_time := dt, status := "Booked" }],
            nextApptId := st.nextApptId + 1 }
          { id := st.nextApptId, patient_id := u, doctor_id := did,
            date_time := dt, status := "Booked" }) := by
  constructor
  · intro U u r di ds ts
    unfold patient_create_appointment
    by_cases h1 : r ≠ "patient"
    · rw [if_pos h1, if_pos h1]
    rw [if_neg h1, if_neg h1]
    by_cases h2 : di = "" ∨ ds = "" ∨ ts = ""
    · rw [if_pos h2, if_pos h2]
    rw [if_neg h2, if_neg h2]
    cases hdt : strptimeDateTime ds ts with
    | none => rfl
    | some dt =>
      cases hdid : pyInt? di with
      | none => rfl
      | some did =>
        dsimp only
        by_cases h3 : hasConflict st.appointments did dt none = true
        · rw [if_pos h3, if_pos h3]
        · rw [if_neg h3, if_neg h3]
          rfl
  · intro u di ds ts dt did hdi hds hts hdt hdid hnc
    simp [patient_create_appointment, hdi, hds, hts, hdt, hdid, hnc]

/-- Witness for the amended claim C2: replacing the user table by the empty
one does not change the booking outcome, and booking the inactive doctor 2
succeeds with a Booked appointment. -/
theorem booking_checks_no_doctor_witness :
    (patient_create_appointment { stInactive with users := [] } 1 "patient"
        "2" "2024-06-01" "10:00").tag
      = (patient_create_appointment stInactive 1 "patient" "2" "2024-06-01"
        "10:00").tag ∧
    patient_create_appointment stInactive 1 "patient" "2" "2024-06-01" "10:00"
      = .success
          ⟨[⟨2, "doctor", false⟩],
           [⟨1, 1, 2, ⟨2024, 6, 1, 10, 0⟩, "Booked"⟩], [], [], 2, 1, 1⟩
          ⟨1, 1, 2, ⟨2024, 6, 1, 10, 0⟩, "Booked"⟩ := by
  constructor
  · exact (booking_checks_no_doctor stInactive).1 [] 1 "patient" "2"
      "2024-06-01" "10:00"
  · have h := (booking_checks_no_doctor stInactive).2 1 "2" "2024-06-01"
      "10:00" ⟨2024, 6, 1, 10, 0⟩ 2 (by decide) (by decide) (by decide)
      (by decide) (by decide) (by decide)
    exact h.trans (by decide)

/-! ### Claim C3 -/

/-- Claim C3 fails on the code: with a well-formed date and time but a
non-numeric doctor id, the booking POST raises an uncaught ValueError (the
int conversion of the doctor id sits outside the try/except that guards
strptime), modelled as the crash outcome; the claim promised a validation
error and no crash. -/
theorem booking_crashes_on_bad_doctor_id :
    strptimeDateTime "2024-06-01" "10:00" = some ⟨2024, 6, 1, 10, 0⟩ ∧
    pyInt? "abc" = none ∧
    patient_create_appointment ⟨[], [], [], [], 1, 1, 1⟩ 1 "patient" "abc"
      "2024-06-01" "10:00" = .crash := by
  decide

/-- Claim C3 (amended): malformed date or time strings are caught and yield
the invalid-format branch in booking, reschedule and availability creation,
and reschedule and availability creation never raise; booking also never
raises as long as the doctor id is numeric, but a non-numeric doctor id with
well-formed date and time raises an uncaught ValueError. -/
theorem malformed_input_is_caught (st : AppState) :
    (∀ (u : Nat) (r di ds ts : String), pyInt? di ≠ none →
      patient_create_appointment st u r di ds ts ≠ .crash) ∧
    (∀ (u : Nat) (di ds ts : String), di ≠ "" → ds ≠ "" → ts ≠ "" →
      strptimeDateTime ds ts = none →
      patient_create_appointment st u "patient" di ds ts = .invalidFormat) ∧
    (∀ (u i : Nat) (ds ts : String) (appt : Appointment),
      findPatientAppt st.appointments i u = some appt →
      appt.status = "Booked" → ds ≠ "" → ts ≠ "" →
      strptimeDateTime ds ts = none →
      patient_reschedule_appointment st u "patient" i ds ts
        = .invalidFormat) ∧
    (∀ (u : Nat) (ds ss es : String), ds ≠ "" → ss ≠ "" → es ≠ "" →
      strptimeDate ds = none ∨ strptimeTime ss = none ∨
        strptimeTime es = none →
      doctor_availability st u "doctor" ds ss es = .invalidFormat) := by
  refine ⟨?_, ?_, ?_, ?_⟩
  · intro u r di ds ts hdi
    unfold patient_create_appointment
    split
    · simp
    split
    · simp
    split
    · simp
    · split
      · next hnone => exact absurd hnone hdi
      · split
        · simp
        · simp
  · intro u di ds ts hdi hds hts hdt
    simp [patient_create_appointment, hdi, hds, hts, hdt]
  · intro u i ds ts appt hfind hb hds hts hdt
    simp [patient_reschedule_appointment, hfind, hb, hds, hts, hdt]
  · intro u ds ss es hds hss hes hbad
    rcases hbad with h | h | h
    · simp [doctor_availability, hds, hss, hes, h]
    · cases hd : strptimeDate ds with
      | none => simp [doctor_availability, hds, hss, hes, hd]
      | some d => simp [doctor_availability, hds, hss, hes, hd, h]
    · cases hd : strptimeDate ds with
      | none => simp [doctor_availability, hds, hss, hes, hd]
      | some d =>
        cases hs : strptimeTime ss with
        | none => simp [doctor_availability, hds, hss, hes, hd, hs]
        | some sT => simp [doctor_availability, hds, hss, hes, hd, hs, h]

/-- Witness for the amended claim C3 at concrete inputs: a numeric doctor id
never crashes booking; an out-of-range month, a day invalid for the month
and an out-of-range hour are all caught as invalid-format in the three
handlers. -/
theorem malformed_input_is_caught_witness :
    patient_create_appointment ⟨[], [], [], [], 1, 1, 1⟩ 1 "patient" "2"
      "2024-06-01" "10:00" ≠ .crash ∧
    patient_create_appointment ⟨[], [], [], [], 1, 1, 1⟩ 1 "patient" "2"
      "2024-13-01" "10:00" = .invalidFormat ∧
    patient_reschedule_appointment
      ⟨[], [⟨1, 7, 2, ⟨2024, 6, 1, 10, 0⟩, "Booked"⟩], [], [], 2, 1, 1⟩
      7 "patient" 1 "2024-02-30" "10:00" = .invalidFormat ∧
    doctor_availability ⟨[], [], [], [], 1, 1, 1⟩ 2 "doctor"
      "2024-06-01" "09:00" "25:00" = .invalidFormat := by
  refine ⟨?_, ?_, ?_, ?_⟩
  · exact (malformed_input_is_caught ⟨[], [], [], [], 1, 1, 1⟩).1 1 "patient"
      "2" "2024-06-01" "10:00" (by decide)
  · exact (malformed_input_is_caught ⟨[], [], [], [], 1, 1, 1⟩).2.1 1 "2"
      "2024-13-01" "10:00" (by decide) (by decide) (by decide) (by decide)
  · exact (malformed_input_is_caught
      ⟨[], [⟨1, 7, 2, ⟨2024, 6, 1, 10, 0⟩, "Booked"⟩], [], [], 2, 1, 1⟩).2.2.1
      7 1 "2024-02-30" "10:00" ⟨1, 7, 2, ⟨2024, 6, 1, 10, 0⟩, "Booked"⟩
      (by decide) (by decide) (by decide) (by decide) (by decide)
  · exact (malformed_input_is_caught ⟨[], [], [], [], 1, 1, 1⟩).2.2.2 2
      "2024-06-01" "09:00" "25:00" (by decide) (by decide) (by decide)
      (Or.inr (Or.inr (by decide)))

/-! ### Claim C7 -/

/-- Claim C7: availability creation fails with the validation error whenever
the parsed end time is not after the start time; fails with the overlap error
when some existing slot of the same doctor on the same date satisfies
existing.start before new.end and existing.end after new.start; and when
every existing same-doctor same-date slot ends at or before the new start or
starts at or after the new end (adjacency allowed), the slot is persisted. -/
theorem addSlot_spec (st : AppState) (u : Nat) (ds ss es : String)
    (d : PDate) (sT eT : PTime) (hds : ds ≠ "") (hss : ss ≠ "") (hes : es ≠ "")
    (hd : strptimeDate ds = some d) (hs : strptimeTime ss = some sT)
    (he : strptimeTime es = some eT) :
    (eT.key ≤ sT.key →
      doctor_availability st u "doctor" ds ss es = .validationError) ∧
    (sT.key < eT.key →
      (∃ s ∈ st.availabilities, s.doctor_id = u ∧ s.date = d ∧
        s.start_time.key < eT.key ∧ sT.key < s.end_time.key) →
      doctor_availability st u "doctor" ds ss es = .overlapError) ∧
    (sT.key < eT.key →
      (∀ s ∈ st.availabilities, s.doctor_id = u → s.date = d →
        s.end_time.key ≤ sT.key ∨ eT.key ≤ s.start_time.key) →
      doctor_availability st u "doctor" ds ss es =
        .success
          { st with
            availabilities := st.availabilities ++
              [{ id := st.nextSlotId, doctor_id := u, date := d,
                 start_time := sT, end_time := eT }],
            nextSlotId := st.nextSlotId + 1 }) := by
  refine ⟨?_, ?_, ?_⟩
  · intro hle
    simp [doctor_availability, hds, hss, hes, hd, hs, he, hle]
  · intro hlt hover
    have hnle : ¬ eT.key ≤ sT.key := Nat.not_le.mpr hlt
    have hA : (st.availabilities.any fun s =>
        s.doctor_id == u && s.date == d
          && decide (s.start_time.key < eT.key)
          && decide (sT.key < s.end_time.key)) = true := by
      rcases hover with ⟨s, hsmem, h1, h2, h3, h4⟩
      exact List.any_eq_true.mpr ⟨s, hsmem, by simp [h1, h2, h3, h4]⟩
    simp [doctor_availability, hds, hss, hes, hd, hs, he, hnle, hA]
  · intro hlt hall
    have hnle : ¬ eT.key ≤ sT.key := Nat.not_le.mpr hlt
    have hA : (st.availabilities.any fun s =>
        s.doctor_id == u && s.date == d
          && decide (s.start_time.key < eT.key)
          && decide (sT.key < s.end_time.key)) = false := by
      rw [List.any_eq_false]
      intro s hsmem hx
      simp only [Bool.and_eq_true, beq_iff_eq, decide_eq_true_eq] at hx
      obtain ⟨⟨⟨h1, h2⟩, h3⟩, h4⟩ := hx
      rcases hall s hsmem h1 h2 with h | h <;> omega
    simp [doctor_availability, hds, hss, hes, hd, hs, he, hnle, hA]

/-- Store for the C7 witness: doctor 2 has the slot 09:00 to 10:00 on
2024-06-01. -/
def stSlots : AppState :=
  ⟨[], [], [], [⟨1, 2, ⟨2024, 6, 1⟩, ⟨9, 0⟩, ⟨10, 0⟩⟩], 1, 1, 2⟩

/-- Witness for claim C7 at the spec example: a backwards slot is rejected,
a slot 09:30 to 10:30 overlapping the existing 09:00 to 10:00 slot is
rejected with the overlap error, and the adjacent slot 10:00 to 11:00 whose
start equals the existing end is accepted and persisted. -/
theorem addSlot_spec_witness :
    doctor_availability stSlots 2 "doctor" "2024-06-01" "10:00" "09:00"
      = .validationError ∧
    doctor_availability stSlots 2 "doctor" "2024-06-01" "09:30" "10:30"
      = .overlapError ∧
    doctor_availability stSlots 2 "doctor" "2024-06-01" "10:00" "11:00"
      = .success
          { stSlots with
            availabilities := stSlots.availabilities ++
              [{ id := 2, doctor_id := 2, date := ⟨2024, 6, 1⟩,
                 start_time := ⟨10, 0⟩, end_time := ⟨11, 0⟩ }],
            nextSlotId := 3 } := by
  refine ⟨?_, ?_, ?_⟩
  · exact (addSlot_spec stSlots 2 "2024-06-01" "10:00" "09:00" ⟨2024, 6, 1⟩
      ⟨10, 0⟩ ⟨9, 0⟩ (by decide) (by decide) (by decide) (by decide)
      (by decide) (by decide)).1 (by decide)
  · exact (addSlot_spec stSlots 2 "2024-06-01" "09:30" "10:30" ⟨2024, 6, 1⟩
      ⟨9, 30⟩ ⟨10, 30⟩ (by decide) (by decide) (by decide) (by decide)
      (by decide) (by decide)).2.1 (by decide)
      ⟨⟨1, 2, ⟨2024, 6, 1⟩, ⟨9, 0⟩, ⟨10, 0⟩⟩, by decide, by decide,
        by decide, by decide, by decide⟩
  · exact (addSlot_spec stSlots 2 "2024-06-01" "10:00" "11:00" ⟨2024, 6, 1⟩
      ⟨10, 0⟩ ⟨11, 0⟩ (by decide) (by decide) (by decide) (by decide)
      (by decide) (by decide)).2.2 (by decide)
      (by decide)

/-! ### Claim C8 -/

/-- Claim C8: availability deletion fails with not-found when no slot with
the given id belongs to the acting doctor, and otherwise deletes exactly
that slot, leaving every appointment, treatment, user and every other slot
unchanged; and booking never consults the availability store: its outcome
constructor is unchanged under arbitrary replacement of the slot table, and
with well-formed input and no appointment conflict a booking succeeds even
when the store holds no availability slot at all. -/
theorem removeSlot_frame (st : AppState) (u sid : Nat) :
    ((∀ s ∈ st.availabilities, ¬(s.id = sid ∧ s.doctor_id = u)) →
      doctor_delete_availability st u "doctor" sid = .notFound) ∧
    (∀ st2, doctor_delete_availability st u "doctor" sid = .success st2 →
      st2.appointments = st.appointments ∧ st2.treatments = st.treatments ∧
      st2.users = st.users ∧
      st2.availabilities =
        removeFirst (fun s => s.id == sid && s.doctor_id == u)
          st.availabilities) ∧
    (∀ (L : List DoctorAvailability) (u2 : Nat) (r di ds ts : String),
      (patient_create_appointment { st with availabilities := L }
          u2 r di ds ts).tag
        = (patient_create_appointment st u2 r di ds ts).tag) ∧
    (∀ (u2 : Nat) (di ds ts : String) (dt : PDateTime) (did : Nat),
      di ≠ "" → ds ≠ "" → ts ≠ "" →
      strptimeDateTime ds ts = some dt → pyInt? di = some did →
      hasConflict st.appointments did dt none = false →
      patient_create_appointment { st with availabilities := [] }
          u2 "patient" di ds ts =
        .success
          { st with
            availabilities := [],
            appointments := st.appointments ++
              [{ id := st.nextApptId, patient_id := u2, doctor_id := did,
                 date_time := dt, status := "Booked" }],
            nextApptId := st.nextApptId + 1 }
          { id := st.nextApptId, patient_id := u2, doctor_id := did,
            date_time := dt, status := "Booked" }) := by
  refine ⟨?_, ?_, ?_, ?_⟩
  · intro hnone
    have hA : (st.availabilities.any fun s =>
        s.id == sid && s.doctor_id == u) = false := by
      rw [List.any_eq_false]
      intro s hsmem hx
      simp only [Bool.and_eq_true, beq_iff_eq] at hx
      exact hnone s hsmem hx
    simp [doctor_delete_availability, hA]
  · intro st2 h
    unfold doctor_delete_availability at h
    split at h
    · simp at h
    split at h
    · simp only [RemoveSlotOutcome.success.injEq] at h
      subst h
      exact ⟨rfl, rfl, rfl, rfl⟩
    · simp at h
  · intro L u2 r di ds ts
    unfold patient_create_appointment
    by_cases h1 : r ≠ "patient"
    · rw [if_pos h1, if_pos h1]
    rw [if_neg h1, if_neg h1]
    by_cases h2 : di = "" ∨ ds = "" ∨ ts = ""
    · rw [if_pos h2, if_pos h2]
    rw [if_neg h2, if_neg h2]
    cases hdt : strptimeDateTime ds ts with
    | none => rfl
    | some dt =>
      cases hdid : pyInt? di with
      | none => rfl
      | some did =>
        dsimp only
        by_cases h3 : hasConflict st.appointments did dt none = true
        · rw [if_pos h3, if_pos h3]
        · rw [if_neg h3, if_neg h3]
          rfl
  · intro u2 di ds ts dt did hdi hds hts hdt hdid hnc
    simp [patient_create_appointment, hdi, hds, hts, hdt, hdid, hnc]

/-- Store for the C8 witness: doctor 2 has one slot and one booked
appointment. -/
def stOneSlot : AppState :=
  ⟨[], [⟨1, 7, 2, ⟨2024, 6, 1, 9, 30⟩, "Booked"⟩], [],
   [⟨1, 2, ⟨2024, 6, 1⟩, ⟨9, 0⟩, ⟨10, 0⟩⟩], 2, 1, 2⟩

/-- Witness for claim C8: deleting slot 5 fails with not-found; deleting
slot 1 removes exactly it and leaves the appointment untouched; the booking
outcome ignores the slot table; and a booking at 2024-06-02 11:00, a time
covered by no slot at all, succeeds. -/
theorem removeSlot_frame_witness :
    doctor_delete_availability stOneSlot 2 "doctor" 5 = .notFound ∧
    (∃ st2, doctor_delete_availability stOneSlot 2 "doctor" 1
        = .success st2 ∧
      st2.appointments = stOneSlot.appointments ∧
      st2.treatments = stOneSlot.treatments ∧
      st2.users = stOneSlot.users ∧
      st2.availabilities =
        removeFirst (fun s => s.id == 1 && s.doctor_id == 2)
          stOneSlot.availabilities) ∧
    (patient_create_appointment { stOneSlot with availabilities := [] }
        7 "patient" "2" "2024-06-02" "11:00").tag
      = (patient_create_appointment stOneSlot 7 "patient" "2" "2024-06-02"
        "11:00").tag ∧
    patient_create_appointment { stOneSlot with availabilities := [] }
        7 "patient" "2" "2024-06-02" "11:00" =
      .success
        { stOneSlot with
          availabilities := [],
          appointments := stOneSlot.appointments ++
            [{ id := 2, patient_id := 7, doctor_id := 2,
               date_time := ⟨2024, 6, 2, 11, 0⟩, status := "Booked" }],
          nextApptId := 3 }
        { id := 2, patient_id := 7, doctor_id := 2,
          date_time := ⟨2024, 6, 2, 11, 0⟩, status := "Booked" } := by
  refine ⟨?_, ?_, ?_, ?_⟩
  · exact (removeSlot_frame stOneSlot 2 5).1 (by decide)
  · exact ⟨⟨[], [⟨1, 7, 2, ⟨2024, 6, 1, 9, 30⟩, "Booked"⟩], [], [], 2, 1, 2⟩,
      by decide, (removeSlot_frame stOneSlot 2 1).2.1 _ (by decide)⟩
  · exact (removeSlot_frame stOneSlot 2 5).2.2.1 [] 7 "patient" "2"
      "2024-06-02" "11:00"
  · exact (removeSlot_frame stOneSlot 2 5).2.2.2 7 "2" "2024-06-02" "11:00"
      ⟨2024, 6, 2, 11, 0⟩ 2 (by decide) (by decide) (by decide) (by decide)
      (by decide) (by decide)
